import Mathlib

/-!
Shallow embedding of the message core of FAL_chat_service
(src/app/services/message_service.py, src/app/api/messages.py,
src/app/api/websocket_routes.py, src/app/models/*, src/app/core/exceptions.py).

Conventions of the embedding:
* UUIDs and timestamps are embedded as `Nat` (both are opaque identities /
  totally ordered instants in the source; `datetime.now` values are passed in
  as explicit `now` parameters, fresh `uuid4` values as explicit id
  parameters).
* The database is a `DB` record of lists of rows; `SELECT ... WHERE pk = x`
  with `scalar_one_or_none` is `List.find?` (primary keys are unique),
  `ORDER BY created_at DESC` is `List.insertionSort` with the corresponding
  relation, `UPDATE` of a loaded row is a `List.map` replacing the row with
  that primary key.
* A raised `ChatServiceError` is an `Except.error`; an operation that raises
  before committing leaves the database unchanged, which the embedding makes
  structural: `Except.error e` carries no successor state.
* Successful commits always succeed (the storage-failure classification
  branches of the source are unreachable in the model).
* Lifecycle events handed to `realtime_service.broadcast_*` are logged as
  `(group_id, event_type)` pairs in the order they are emitted.
-/

deriving instance DecidableEq for Except

namespace ChatCore

/-- Authenticated principal, from src/app/schemas/auth.py (`CurrentUser`). -/
structure CurrentUser where
  user_id : Nat
  username : String
  role : String
deriving Repr, DecidableEq

/-- Embedding of `CurrentUser.is_admin` property: `role == "admin"` (src/app/schemas/auth.py). -/
def CurrentUser.is_admin (u : CurrentUser) : Bool :=
  u.role == "admin"

/-- Modelled from the spec: the pin columns `is_pinned`, `pinned_at`,
`pinned_by` of the Message data model (spec §3) — their column declaration is
not under src/ (src/app/models/message.py omits them while
src/app/services/message_service.py reads and writes them; the declaring
migration/model code is outside the provided sources).  Per the spec they
default to unpinned with empty stamps.  All other fields are translated from
src/app/models/message.py (`extra_data`, the opaque metadata bag, is embedded
as an association list of strings). -/
structure Message where
  id : Nat
  group_id : Nat
  sender_id : Option Nat
  sender_username : Option String
  content : String
  message_type : String
  reply_to_id : Option Nat
  extra_data : List (String × String)
  is_edited : Bool
  edited_at : Option Nat
  is_deleted : Bool
  is_pinned : Bool
  pinned_at : Option Nat
  pinned_by : Option String
  created_at : Nat
  updated_at : Nat
deriving Repr, DecidableEq

/-- Group membership row, from src/app/models/group_member.py. -/
structure GroupMember where
  id : Nat
  group_id : Nat
  user_id : Nat
  username : String
  role : String
deriving Repr, DecidableEq

/-- Read receipt row, from src/app/models/message_read_status.py
(`MessageReadStatus`, unique on `(message_id, user_id)`). -/
structure ReadStatus where
  id : Nat
  message_id : Nat
  user_id : Nat
  read_at : Nat
deriving Repr, DecidableEq

/-- The persistent state visible to the message core: the `group_members`,
`messages` and `message_read_status` tables. -/
structure DB where
  members : List GroupMember
  messages : List Message
  read_statuses : List ReadStatus
deriving Repr, DecidableEq

/-- The error taxonomy of src/app/core/exceptions.py.  Note that the source
declares no `ReplyTargetNotFound` class: the constructors below are exactly
the `ChatServiceError` subclasses of that file. -/
inductive Err where
  | groupNotFound
  | notAMember
  | insufficientPermissions
  | invalidInviteCode
  | messageNotFound
  | alreadyMember
  | storageLimit
  | cannotDeleteDefaultGroup
deriving Repr, DecidableEq

/-- An event handed to the realtime broadcast layer: `(group_id, event_type)`. -/
abbrev SEvent := Nat × String

/-- The membership lookup shared by `send_message` and `toggle_pin_message`
(src/app/services/message_service.py lines 65-72 and 267-274):
`SELECT * FROM group_members WHERE group_id = gid AND user_id = uid`. -/
def membershipExists (db : DB) (gid uid : Nat) : Bool :=
  db.members.any fun m => m.group_id == gid && m.user_id == uid

/-- Replace the message row with primary key `mid` by `m'` (the effect of
mutating a loaded ORM instance and committing). -/
def updateMessage (msgs : List Message) (mid : Nat) (m' : Message) : List Message :=
  msgs.map fun m => if m.id == mid then m' else m

/-- The tombstone literal of src/app/services/message_service.py line 160. -/
def tombstone : String := "[Messaggio eliminato]"

/-- Embedding of `create_system_message` (src/app/services/message_service.py lines 41-53):
insert a `system`-kind message with no sender and broadcast `system_message`. -/
def create_system_message (db : DB) (now new_id : Nat) (group_id : Nat)
    (content : String) : DB × Message × List SEvent :=
  let msg : Message :=
    { id := new_id, group_id := group_id, sender_id := none,
      sender_username := none, content := content, message_type := "system",
      reply_to_id := none, extra_data := [], is_edited := false,
      edited_at := none, is_deleted := false, is_pinned := false,
      pinned_at := none, pinned_by := none, created_at := now,
      updated_at := now }
  ({ db with messages := db.messages ++ [msg] }, msg, [(group_id, "system_message")])

/-- Embedding of `send_message` (src/app/services/message_service.py lines 56-105):
membership check, `admin_announcement` permission check, reply-target
resolution (raising `MessageNotFoundError` at line 82 when `reply_to_id` does
not resolve in the same group), then insert and broadcast `new_message`. -/
def send_message (db : DB) (now new_id : Nat) (group_id : Nat)
    (user : CurrentUser) (content : String) (message_type : String)
    (reply_to_id : Option Nat) (metadata : List (String × String)) :
    Except Err (DB × Message × List SEvent) :=
  if !membershipExists db group_id user.user_id then
    .error .notAMember
  else if message_type == "admin_announcement" && !user.is_admin then
    .error .insufficientPermissions
  else
    let replyOk : Bool :=
      match reply_to_id with
      | none => true
      | some rid =>
          (db.messages.find? fun m => m.id == rid && m.group_id == group_id).isSome
    if !replyOk then
      .error .messageNotFound
    else
      let msg : Message :=
        { id := new_id, group_id := group_id, sender_id := some user.user_id,
          sender_username := some user.username, content := content,
          message_type := message_type, reply_to_id := reply_to_id,
          extra_data := metadata, is_edited := false, edited_at := none,
          is_deleted := false, is_pinned := false, pinned_at := none,
          pinned_by := none, created_at := now, updated_at := now }
      .ok ({ db with messages := db.messages ++ [msg] }, msg,
           [(group_id, "new_message")])

/-- Embedding of `edit_message` (src/app/services/message_service.py lines 108-143): load
by id (`MessageNotFoundError` if absent), reject deleted messages with
`MessageNotFoundError`, reject `system` messages with
`InsufficientPermissionsError` (line 123), require author-or-admin, then
update content/edit stamps and broadcast `message_edited`. -/
def edit_message (db : DB) (now : Nat) (message_id : Nat) (user : CurrentUser)
    (new_content : String) : Except Err (DB × Message × List SEvent) :=
  match db.messages.find? fun m => m.id == message_id with
  | none => .error .messageNotFound
  | some msg =>
    if msg.is_deleted then
      .error .messageNotFound
    else if msg.message_type == "system" then
      .error .insufficientPermissions
    else if msg.sender_id != some user.user_id && !user.is_admin then
      .error .insufficientPermissions
    else
      let msg' := { msg with
        content := new_content, is_edited := true,
        edited_at := some now, updated_at := now }
      .ok ({ db with messages := updateMessage db.messages message_id msg' },
           msg', [(msg.group_id, "message_edited")])

/-- Embedding of `delete_message` (src/app/services/message_service.py lines 146-178): load
by id, require author-or-admin, tombstone the row, broadcast
`message_deleted`; when an admin deletes a message whose non-null sender is
another user, additionally persist a `system` message announcing the removal
(via `create_system_message`, which broadcasts `system_message`). -/
def delete_message (db : DB) (now sys_id : Nat) (message_id : Nat)
    (user : CurrentUser) : Except Err (DB × Message × List SEvent) :=
  match db.messages.find? fun m => m.id == message_id with
  | none => .error .messageNotFound
  | some msg =>
    if msg.sender_id != some user.user_id && !user.is_admin then
      .error .insufficientPermissions
    else
      let msg' := { msg with
        is_deleted := true, content := tombstone, updated_at := now }
      let db1 : DB := { db with messages := updateMessage db.messages message_id msg' }
      if user.is_admin && msg.sender_id.isSome && msg.sender_id != some user.user_id then
        let res := create_system_message db1 now sys_id msg.group_id
          ("Un messaggio è stato rimosso da " ++ user.username)
        .ok (res.1, msg', (msg.group_id, "message_deleted") :: res.2.2)
      else
        .ok (db1, msg', [(msg.group_id, "message_deleted")])

/-- The `ORDER BY created_at DESC` relation of `get_messages`. -/
def newerFirst (a b : Message) : Prop := b.created_at ≤ a.created_at

instance : DecidableRel newerFirst := fun a b => by
  unfold newerFirst; infer_instance

instance : IsTotal Message newerFirst :=
  ⟨fun a b => Nat.le_total b.created_at a.created_at⟩

instance : IsTrans Message newerFirst :=
  ⟨fun _ _ _ h1 h2 => Nat.le_trans h2 h1⟩

/-- The WHERE clause of `get_messages`: same group and, when a cursor is
given, strictly older than it. -/
def msgMatches (gid : Nat) (before : Option Nat) (m : Message) : Bool :=
  m.group_id == gid &&
    match before with
    | none => true
    | some b => m.created_at < b

/-- Embedding of `get_messages` (src/app/services/message_service.py lines 181-202): fetch
`limit + 1` rows matching the group (and cursor) ordered newest first,
set `has_more` when more than `limit` came back, drop the extra row, and
reverse so the page is oldest first. -/
def get_messages (db : DB) (group_id : Nat) (limit : Nat)
    (before : Option Nat) : List Message × Bool :=
  let fetched :=
    ((db.messages.filter (msgMatches group_id before)).insertionSort newerFirst).take
      (limit + 1)
  let has_more := decide (limit < fetched.length)
  let kept := if has_more then fetched.take limit else fetched
  (kept.reverse, has_more)

/-- Embedding of `get_message` (src/app/services/message_service.py lines 205-210). -/
def get_message (db : DB) (message_id : Nat) : Except Err Message :=
  match db.messages.find? fun m => m.id == message_id with
  | none => .error .messageNotFound
  | some msg => .ok msg

/-- Embedding of `toggle_pin_message` (src/app/services/message_service.py lines 260-303):
membership check, load by `(id, group_id)` (`MessageNotFoundError` if absent
or deleted), flip `is_pinned`, stamp or clear `pinned_at`/`pinned_by`, and
broadcast `message_pinned`. -/
def toggle_pin_message (db : DB) (now : Nat) (message_id group_id : Nat)
    (user : CurrentUser) : Except Err (DB × Message × List SEvent) :=
  if !membershipExists db group_id user.user_id then
    .error .notAMember
  else
    match db.messages.find? fun m => m.id == message_id && m.group_id == group_id with
    | none => .error .messageNotFound
    | some msg =>
      if msg.is_deleted then
        .error .messageNotFound
      else
        let new_pinned := !msg.is_pinned
        let msg' := { msg with
          is_pinned := new_pinned,
          pinned_at := if new_pinned then some now else none,
          pinned_by := if new_pinned then some user.username else none,
          updated_at := now }
        .ok ({ db with messages := updateMessage db.messages message_id msg' },
             msg', [(group_id, "message_pinned")])

/-- Does the `message_read_status` table already hold a `(message_id,
user_id)` pair?  Models the per-id existence SELECT of
`mark_messages_read`. -/
def hasReceipt (rs : List ReadStatus) (mid uid : Nat) : Bool :=
  rs.any fun s => s.message_id == mid && s.user_id == uid

/-- The insert-or-skip loop of `mark_messages_read`
(src/app/services/message_service.py lines 218-232).  The existence SELECT
runs against the session, so rows added earlier in the same call are visible
(SQLAlchemy autoflush).  Returns the final table and the newly created rows
in order.  Fresh primary keys are `next_id`, `next_id + 1`, .... -/
def mark_loop (user_id now : Nat) : List Nat → List ReadStatus → Nat →
    List ReadStatus × List ReadStatus
  | [], rs, _ => (rs, [])
  | mid :: rest, rs, next_id =>
    if hasReceipt rs mid user_id then
      mark_loop user_id now rest rs next_id
    else
      let s : ReadStatus := ⟨next_id, mid, user_id, now⟩
      let res := mark_loop user_id now rest (rs ++ [s]) (next_id + 1)
      (res.1, s :: res.2)

/-- Embedding of `mark_messages_read` (src/app/services/message_service.py lines 213-239):
insert-or-skip a receipt for each id, returning the newly created rows. -/
def mark_messages_read (db : DB) (now base_id : Nat) (user_id : Nat)
    (message_ids : List Nat) : DB × List ReadStatus :=
  let res := mark_loop user_id now message_ids db.read_statuses base_id
  ({ db with read_statuses := res.1 }, res.2)

/-- Embedding of `get_unread_count` (src/app/services/message_service.py lines 242-257):
count the group's non-deleted messages whose id has no receipt for the
user. -/
def get_unread_count (db : DB) (group_id user_id : Nat) : Nat :=
  (db.messages.filter fun m =>
    m.group_id == group_id && !m.is_deleted &&
      !(db.read_statuses.any fun s => s.user_id == user_id && s.message_id == m.id)).length

/-! ### The push channel (src/app/api/websocket_routes.py) -/

/-- The in-process connection registry `active_connections : dict[str,
dict[str, WebSocket]]` (src/app/api/websocket_routes.py line 16).  Keys are
`str(group_id)` / `str(user_id)`, injective images of the UUIDs, embedded as
the ids themselves; a WebSocket handle is an opaque `Nat`.  The inner maps
are association lists (one entry per user). -/
abbrev Registry := List (Nat × List (Nat × Nat))

/-- The `active_connections[gk]` lookup: the connection map of a group, if
any. -/
def lookupGroupConns (reg : Registry) (gid : Nat) : Option (List (Nat × Nat)) :=
  (reg.find? fun e => e.1 == gid).map fun e => e.2

/-- Embedding of `_broadcast_to_group_ws` (src/app/api/websocket_routes.py lines 27-48):
iterate the group's connection snapshot, skipping the entry of
`exclude_user` when one is given, and send the envelope to each remaining
handle.  Returns the `(user, handle)` pairs the envelope is sent to; every
handle is assumed live (the pruning of handles whose send raised is not
modelled). -/
def broadcast_to_group_ws (reg : Registry) (gid : Nat)
    (_event_type : String) (exclude_user : Option Nat) : List (Nat × Nat) :=
  match lookupGroupConns reg gid with
  | none => []
  | some conns =>
    conns.filter fun uc =>
      match exclude_user with
      | some eu => !(uc.1 == eu)
      | none => true

/-- Outcome of one inbound `send_message` action on the push channel:
`ignored` is the bare `continue` (no row, no broadcast, no reply of any
kind), `sent ds` is a successful send whose `new_message` envelope was
delivered to exactly the targets `ds`, and `errorEnvelope e` is an `error`
envelope sent back to the originating connection only. -/
inductive WsOutcome where
  | ignored
  | sent (deliveries : List (Nat × Nat))
  | errorEnvelope (e : Err)
deriving Repr, DecidableEq

/-- Python's `str.strip()`: drop leading and trailing whitespace, embedded
over the character list of the string. -/
def pyStrip (s : String) : String :=
  ⟨((s.data.dropWhile Char.isWhitespace).reverse.dropWhile
      Char.isWhitespace).reverse⟩

/-- The `send_message` action of the push-channel receive loop
(src/app/api/websocket_routes.py lines 119-155): strip the content and
silently skip (`continue`) when the result is empty; otherwise run the
service-layer send and, on success, broadcast `new_message` to the group
with **no** `exclude_user` argument (line 149); when the service raises, an
`error` envelope goes back to the originating connection.  Returns the
database after the action together with the outcome. -/
def ws_send_message (db : DB) (reg : Registry) (now new_id : Nat)
    (group_id : Nat) (user : CurrentUser) (content : String)
    (message_type : String) (reply_to_id : Option Nat) : DB × WsOutcome :=
  let c := pyStrip content
  if c == "" then
    (db, .ignored)
  else
    match send_message db now new_id group_id user c message_type reply_to_id [] with
    | .ok res =>
        (res.1, .sent (broadcast_to_group_ws reg group_id "new_message" none))
    | .error e => (db, .errorEnvelope e)

/-! ### Concrete fixtures for witnesses and counterexamples -/

/-- Build a message row with the column defaults of
src/app/models/message.py (not edited, not deleted, unpinned, empty
metadata, `updated_at = created_at`). -/
def mkMsg (id gid : Nat) (sender : Option Nat) (sname : Option String)
    (mtype content : String) (ca : Nat) : Message :=
  { id := id, group_id := gid, sender_id := sender, sender_username := sname,
    content := content, message_type := mtype, reply_to_id := none,
    extra_data := [], is_edited := false, edited_at := none,
    is_deleted := false, is_pinned := false, pinned_at := none,
    pinned_by := none, created_at := ca, updated_at := ca }

def alice : CurrentUser := ⟨10, "alice", "member"⟩

def bob : CurrentUser := ⟨11, "bob", "member"⟩

def boss : CurrentUser := ⟨12, "boss", "admin"⟩

/-- A group (id 1) with members alice, bob and boss, a text message of
alice, a text message of bob, a system message, and a deleted message of
bob. -/
def exDb : DB :=
  { members := [⟨1, 1, 10, "alice", "member"⟩, ⟨2, 1, 11, "bob", "member"⟩,
                ⟨3, 1, 12, "boss", "admin"⟩],
    messages := [mkMsg 100 1 (some 10) (some "alice") "text" "hi" 5,
                 mkMsg 101 1 (some 11) (some "bob") "text" "yo" 6,
                 mkMsg 102 1 none none "system" "bob joined" 7,
                 { mkMsg 103 1 (some 11) (some "bob") "text" tombstone 8 with
                   is_deleted := true }],
    read_statuses := [] }

/-- Live connections of group 1: alice on handle 100, bob on handle 101. -/
def regAB : Registry := [(1, [(10, 100), (11, 101)])]

/-! ### Mutation blocks of the lifecycle operations, as named rows -/

/-- The pin-flip mutation block of `toggle_pin_message`
(src/app/services/message_service.py lines 285-289), as a function of the
loaded row. -/
def pinToggled (m : Message) (now : Nat) (u : CurrentUser) : Message :=
  { m with
    is_pinned := !m.is_pinned,
    pinned_at := if !m.is_pinned then some now else none,
    pinned_by := if !m.is_pinned then some u.username else none,
    updated_at := now }

/-- The tombstoning mutation block of `delete_message`
(src/app/services/message_service.py lines 159-161). -/
def tombstoned (m : Message) (now : Nat) : Message :=
  { m with
    is_deleted := true, content := tombstone, updated_at := now }

/-- The system row persisted by `create_system_message` for a given id, group,
content and instant. -/
def systemRow (new_id gid : Nat) (content : String) (now : Nat) : Message :=
  { id := new_id, group_id := gid, sender_id := none, sender_username := none,
    content := content, message_type := "system", reply_to_id := none,
    extra_data := [], is_edited := false, edited_at := none,
    is_deleted := false, is_pinned := false, pinned_at := none,
    pinned_by := none, created_at := now, updated_at := now }

/-! ### Read-receipt keys -/

/-- Two receipt rows with distinct `(message_id, user_id)` keys. -/
def receiptKeyDistinct (a b : ReadStatus) : Prop :=
  ¬(a.message_id = b.message_id ∧ a.user_id = b.user_id)

/-- The `(message_id, user_id)` unique constraint of the
`message_read_status` table: no two rows share a key. -/
def keysNodup (rs : List ReadStatus) : Prop :=
  rs.Pairwise receiptKeyDistinct

/-! ### Pagination: orders, sorted views and the cursor walk -/

/-- Strictly newer first: the (unique) order of a `created_at DESC` result
when all `created_at` values are pairwise distinct. -/
def strictNewer (a b : Message) : Prop := b.created_at < a.created_at

instance : DecidableRel strictNewer := fun a b => by
  unfold strictNewer; infer_instance

instance : IsAntisymm Message strictNewer :=
  ⟨fun _ _ h1 h2 => absurd (Nat.lt_trans h1 h2) (Nat.lt_irrefl _)⟩

/-- Ascending by `created_at` (oldest first), strictly. -/
def olderFirst (a b : Message) : Prop := a.created_at < b.created_at

/-- The rows of one group (the `WHERE group_id = gid` clause alone). -/
def groupRows (db : DB) (gid : Nat) : List Message :=
  db.messages.filter fun m => m.group_id == gid

/-- Pairwise-distinct `created_at` values. -/
def distinctTimes (l : List Message) : Prop :=
  l.Pairwise fun a b => a.created_at ≠ b.created_at

instance (l : List Message) : Decidable (distinctTimes l) := by
  unfold distinctTimes
  infer_instance

/-- The group's rows in `ORDER BY created_at DESC` order. -/
def sortedG (db : DB) (gid : Nat) : List Message :=
  (groupRows db gid).insertionSort newerFirst

/-- The page computation of `get_messages` as a function of the (sorted,
filtered) result list alone. -/
def pageOf (l : List Message) (limit : Nat) : List Message × Bool :=
  let fetched := l.take (limit + 1)
  let has_more := decide (limit < fetched.length)
  ((if has_more then fetched.take limit else fetched).reverse, has_more)

/-- The sorted result list `get_messages` pages over, for a given cursor. -/
def cursorRows (db : DB) (gid : Nat) : Option Nat → List Message
  | none => sortedG db gid
  | some b => (sortedG db gid).filter fun m => decide (m.created_at < b)

/-- The cursor walk of the history API: call `get_messages` and, while
`has_more` is true and the page nonempty, re-call with the `created_at` of
the page's first (oldest) message — exactly the `next_cursor`
`list_messages` emits (src/app/api/messages.py line 62).  `fuel` bounds the
number of calls. -/
def paginate (db : DB) (gid limit : Nat) : Nat → Option Nat → List (List Message)
  | 0, _ => []
  | fuel + 1, cursor =>
    let pr := get_messages db gid limit cursor
    if pr.2 then
      match pr.1.head? with
      | some hd => pr.1 :: paginate db gid limit fuel (some hd.created_at)
      | none => [pr.1]
    else [pr.1]

/-- Group 1 with two messages sharing `created_at = 5` (a timestamp tie). -/
def exDbTie : DB :=
  { members := [⟨1, 1, 10, "alice", "member"⟩],
    messages := [mkMsg 100 1 (some 10) (some "alice") "text" "a" 5,
                 mkMsg 101 1 (some 10) (some "alice") "text" "b" 5],
    read_statuses := [] }

/-- Group 1 with three messages at distinct instants 5 < 6 < 7. -/
def exDb6 : DB :=
  { members := [⟨1, 1, 10, "alice", "member"⟩],
    messages := [mkMsg 100 1 (some 10) (some "alice") "text" "a" 5,
                 mkMsg 101 1 (some 10) (some "alice") "text" "b" 6,
                 mkMsg 102 1 (some 10) (some "alice") "text" "c" 7],
    read_statuses := [] }

/-! ### Helper lemmas -/

theorem find?_append_some {α : Type} {p : α → Bool} {l1 : List α}
    (l2 : List α) {a : α} (h : l1.find? p = some a) :
    (l1 ++ l2).find? p = some a := by
  induction l1 with
  | nil => simp at h
  | cons y t ih =>
    cases hy : p y with
    | true =>
      rw [List.find?_cons_of_pos _ hy] at h
      rw [List.cons_append, List.find?_cons_of_pos _ hy]
      exact h
    | false =>
      rw [List.find?_cons_of_neg _ (by simp [hy])] at h
      rw [List.cons_append, List.find?_cons_of_neg _ (by simp [hy])]
      exact ih h

theorem updateMessage_cons (y : Message) (t : List Message) (mid : Nat)
    (m' : Message) :
    updateMessage (y :: t) mid m' =
      (if y.id == mid then m' else y) :: updateMessage t mid m' := rfl

theorem find?_updateMessage_id {l : List Message} {mid : Nat} {m : Message}
    (m' : Message) (h : (l.find? fun x => x.id == mid) = some m)
    (hid : m'.id = m.id) :
    ((updateMessage l mid m').find? fun x => x.id == mid) = some m' := by
  have hm0 := List.find?_some h
  have hm : (m.id == mid) = true := hm0
  have hm' : (m'.id == mid) = true := by rw [hid]; exact hm
  induction l with
  | nil => simp at h
  | cons y t ih =>
    rw [updateMessage_cons]
    by_cases hy : (y.id == mid) = true
    · rw [if_pos hy]
      exact List.find?_cons_of_pos _ hm'
    · have hneg : List.find? (fun x => x.id == mid) (y :: t) =
          List.find? (fun x => x.id == mid) t := List.find?_cons_of_neg _ hy
      rw [hneg] at h
      have hnegU : List.find? (fun x => x.id == mid)
            (y :: updateMessage t mid m') =
          List.find? (fun x => x.id == mid) (updateMessage t mid m') :=
        List.find?_cons_of_neg _ hy
      rw [if_neg hy, hnegU]
      exact ih h

theorem find?_updateMessage_idg {l : List Message} {mid gid : Nat}
    {m : Message} (m' : Message)
    (h : (l.find? fun x => x.id == mid && x.group_id == gid) = some m)
    (hid : m'.id = m.id) (hg : m'.group_id = gid) :
    ((updateMessage l mid m').find? fun x => x.id == mid && x.group_id == gid) =
      some m' := by
  have hm0 := List.find?_some h
  have hm : (m.id == mid && m.group_id == gid) = true := hm0
  have hmid : (m.id == mid) = true := by
    have := Bool.and_eq_true (m.id == mid) (m.group_id == gid) ▸ hm
    exact this.1
  have hm' : (m'.id == mid && m'.group_id == gid) = true := by
    rw [Bool.and_eq_true]
    exact ⟨by rw [hid]; exact hmid, by rw [hg]; simp⟩
  induction l with
  | nil => simp at h
  | cons y t ih =>
    rw [updateMessage_cons]
    by_cases hy : (y.id == mid) = true
    · rw [if_pos hy]
      exact List.find?_cons_of_pos _ hm'
    · have hpy : ¬((y.id == mid && y.group_id == gid) = true) := by
        rw [Bool.and_eq_true]
        exact fun hc => hy hc.1
      have hneg : List.find? (fun x => x.id == mid && x.group_id == gid)
            (y :: t) =
          List.find? (fun x => x.id == mid && x.group_id == gid) t :=
        List.find?_cons_of_neg _ hpy
      rw [hneg] at h
      have hnegU : List.find? (fun x => x.id == mid && x.group_id == gid)
            (y :: updateMessage t mid m') =
          List.find? (fun x => x.id == mid && x.group_id == gid)
            (updateMessage t mid m') :=
        List.find?_cons_of_neg _ hpy
      rw [if_neg hy, hnegU]
      exact ih h

/-! ### C2 — editMessage on a system message -/

/-- C2 counterexample: message 102 of `exDb` exists, has kind `system` and is
not deleted, yet `edit_message` fails with `InsufficientPermissions` (even
for the admin caller), not with `MessageNotFound` as the claim states
(src/app/services/message_service.py line 123 raises
`InsufficientPermissionsError`). -/
theorem edit_system_message_cex :
    edit_message exDb 9 102 boss "new" =
        .error Err.insufficientPermissions ∧
      Err.insufficientPermissions ≠ Err.messageNotFound := by
  decide

/-- C2 amended: `edit_message` on a `system`-kind message fails for every
caller, but with `InsufficientPermissions` when the message is not deleted;
only a deleted system message fails with `MessageNotFound` (the deletion
check precedes the system check). -/
theorem edit_system_message_rejected (db : DB) (now mid : Nat)
    (u : CurrentUser) (nc : String) (m : Message)
    (hfind : (db.messages.find? fun x => x.id == mid) = some m)
    (hsys : m.message_type = "system") :
    edit_message db now mid u nc =
      .error (if m.is_deleted then Err.messageNotFound
              else Err.insufficientPermissions) := by
  unfold edit_message
  rw [hfind]
  cases hdel : m.is_deleted with
  | true => simp [hdel]
  | false => simp [hdel, hsys]

/-- C2 witness: the amended theorem applied to the live system message 102 of
`exDb` and the non-author caller alice. -/
theorem edit_system_message_rejected_witness :
    edit_message exDb 9 102 alice "x" = .error Err.insufficientPermissions := by
  have h := edit_system_message_rejected exDb 9 102 alice "x"
    (mkMsg 102 1 none none "system" "bob joined" 7) (by decide) (by decide)
  simpa [mkMsg] using h

/-! ### C3 — unresolved reply target -/

/-- C3 counterexample: a member sending with a `reply_to_id` that resolves to
no message of the group fails with `MessageNotFound`
(src/app/services/message_service.py line 82), not with a distinct
`ReplyTargetNotFound`; indeed the error taxonomy of
src/app/core/exceptions.py (the `Err` type) has no such constructor. -/
theorem send_dangling_reply_cex :
    send_message exDb 9 300 1 alice "hi" "text" (some 999) [] =
      .error Err.messageNotFound := by
  decide

/-- C3 amended: a send by a member (with permission for its kind) whose
`reply_to_id` does not resolve within the same group fails with
`MessageNotFound` — the taxonomy has no separate `ReplyTargetNotFound` — and
no message row is created (an `Except.error` result carries no successor
state, so the store is untouched). -/
theorem send_dangling_reply_rejected (db : DB) (now nid gid : Nat)
    (u : CurrentUser) (content mt : String) (rid : Nat)
    (meta : List (String × String))
    (hmem : membershipExists db gid u.user_id = true)
    (hmt : mt = "admin_announcement" → u.is_admin = true)
    (hrid : (db.messages.find? fun x => x.id == rid && x.group_id == gid) = none) :
    send_message db now nid gid u content mt (some rid) meta =
      .error Err.messageNotFound := by
  unfold send_message
  have hperm : (mt == "admin_announcement" && !u.is_admin) = false := by
    by_cases hcase : mt = "admin_announcement"
    · simp [hcase, hmt hcase]
    · simp [hcase]
  simp [hmem, hperm, hrid]

/-- C3 witness: the amended theorem applied to alice replying to the absent
message 999 in `exDb`. -/
theorem send_dangling_reply_rejected_witness :
    send_message exDb 9 301 1 alice "hello" "text" (some 999) [] =
      .error Err.messageNotFound :=
  send_dangling_reply_rejected exDb 9 301 1 alice "hello" "text" 999 []
    (by decide) (by decide) (by decide)

/-! ### C8 — editMessage on a deleted message -/

/-- C8: `edit_message` on a message with `is_deleted = true` fails with
`MessageNotFound` for every caller — the deletion check
(src/app/services/message_service.py lines 119-120) precedes both permission
checks, so `InsufficientPermissions` is unreachable — and, the result being
an `Except.error`, the store (and so the message) is untouched. -/
theorem edit_deleted_message_rejected (db : DB) (now mid : Nat)
    (u : CurrentUser) (nc : String) (m : Message)
    (hfind : (db.messages.find? fun x => x.id == mid) = some m)
    (hdel : m.is_deleted = true) :
    edit_message db now mid u nc = .error Err.messageNotFound := by
  unfold edit_message
  rw [hfind]
  simp [hdel]

/-- C8 witness: the theorem applied to the deleted message 103 of `exDb`,
called by the admin (the strongest role). -/
theorem edit_deleted_message_rejected_witness :
    edit_message exDb 9 103 boss "x" = .error Err.messageNotFound :=
  edit_deleted_message_rejected exDb 9 103 boss "x"
    { mkMsg 103 1 (some 11) (some "bob") "text" tombstone 8 with
      is_deleted := true }
    (by decide) (by decide)

/-! ### C1 — togglePin -/

/-- C1: for the message addressed by `(mid, gid)`: a non-member caller gets
`NotAMember`; an absent or deleted message gets `MessageNotFound`; for a
member and an existing non-deleted message the call succeeds, flips
`is_pinned`, stamps `pinned_at`/`pinned_by` when pinning and clears them when
unpinning, persists the flipped row, and emits `message_pinned`.  The pin
columns themselves are the spec-modelled fields of `Message`. -/
theorem toggle_pin_behavior (db : DB) (now mid gid : Nat) (u : CurrentUser) :
    (membershipExists db gid u.user_id = false →
      toggle_pin_message db now mid gid u = .error .notAMember) ∧
    (membershipExists db gid u.user_id = true →
      (db.messages.find? fun x => x.id == mid && x.group_id == gid) = none →
      toggle_pin_message db now mid gid u = .error .messageNotFound) ∧
    (∀ m, membershipExists db gid u.user_id = true →
      (db.messages.find? fun x => x.id == mid && x.group_id == gid) = some m →
      m.is_deleted = true →
      toggle_pin_message db now mid gid u = .error .messageNotFound) ∧
    (∀ m, membershipExists db gid u.user_id = true →
      (db.messages.find? fun x => x.id == mid && x.group_id == gid) = some m →
      m.is_deleted = false →
      ∃ db' m', toggle_pin_message db now mid gid u =
          .ok (db', m', [(gid, "message_pinned")]) ∧
        m'.is_pinned = !m.is_pinned ∧
        (m.is_pinned = false →
          m'.pinned_at = some now ∧ m'.pinned_by = some u.username) ∧
        (m.is_pinned = true → m'.pinned_at = none ∧ m'.pinned_by = none) ∧
        (db'.messages.find? fun x => x.id == mid && x.group_id == gid) =
          some m') := by
  refine ⟨?_, ?_, ?_, ?_⟩
  · intro hmem
    unfold toggle_pin_message
    simp [hmem]
  · intro hmem hfind
    unfold toggle_pin_message
    simp [hmem, hfind]
  · intro m hmem hfind hdel
    unfold toggle_pin_message
    rw [hmem]
    simp only [Bool.not_true, Bool.false_eq_true, if_false]
    rw [hfind]
    simp [hdel]
  · intro m hmem hfind hdel
    have hm0 := List.find?_some hfind
    have hmm : (m.id == mid && m.group_id == gid) = true := hm0
    have hmid : m.id = mid := by
      have h2 := Bool.and_eq_true (m.id == mid) (m.group_id == gid) ▸ hmm
      simpa using h2.1
    have hmg : m.group_id = gid := by
      have h2 := Bool.and_eq_true (m.id == mid) (m.group_id == gid) ▸ hmm
      simpa using h2.2
    refine ⟨{ db with messages := updateMessage db.messages mid (pinToggled m now u) }, pinToggled m now u, ?_, ?_, ?_, ?_, ?_⟩
    · unfold toggle_pin_message
      rw [hmem]
      simp only [Bool.not_true, Bool.false_eq_true, if_false]
      rw [hfind]
      simp [pinToggled, hdel]
    · simp [pinToggled]
    · intro hpin
      constructor
      · simp [pinToggled, hpin]
      · simp [pinToggled, hpin]
    · intro hpin
      constructor
      · simp [pinToggled, hpin]
      · simp [pinToggled, hpin]
    · exact find?_updateMessage_idg _ hfind rfl hmg

/-- C1 witness: alice (a member) pins the unpinned message 100 of `exDb`. -/
theorem toggle_pin_behavior_witness :
    ∃ db' m', toggle_pin_message exDb 9 100 1 alice =
        .ok (db', m', [(1, "message_pinned")]) ∧
      m'.is_pinned = true ∧ m'.pinned_at = some 9 ∧
      m'.pinned_by = some "alice" := by
  obtain ⟨db', m', heq, hflip, hstamp, _, _⟩ :=
    (toggle_pin_behavior exDb 9 100 1 alice).2.2.2
      (mkMsg 100 1 (some 10) (some "alice") "text" "hi" 5)
      (by decide) (by decide) (by decide)
  obtain ⟨hat, hby⟩ := hstamp (by decide)
  exact ⟨db', m', heq, by simpa [mkMsg] using hflip, hat, hby⟩

/-! ### C9 — deleteMessage by an admin -/

/-- C9: deleting an existing message whose non-null sender is another user,
as an admin, tombstones the row (`is_deleted = true`, content forced to the
tombstone literal), emits `message_deleted` for the message's group, and
additionally persists a `system`-kind message with no sender announcing the
removal, emitting `system_message`; when the deleter is the author themself
the database gains no extra row and only `message_deleted` is emitted. -/
theorem delete_message_behavior (db : DB) (now sid mid : Nat)
    (u : CurrentUser) :
    (∀ m s, (db.messages.find? fun x => x.id == mid) = some m →
      m.sender_id = some s → s ≠ u.user_id → u.is_admin = true →
      ∃ db' m', delete_message db now sid mid u =
          .ok (db', m',
            [(m.group_id, "message_deleted"), (m.group_id, "system_message")]) ∧
        m'.is_deleted = true ∧ m'.content = tombstone ∧
        ((db'.messages.find? fun x => x.id == mid) = some m') ∧
        ∃ sys ∈ db'.messages, sys.id = sid ∧ sys.message_type = "system" ∧
          sys.sender_id = none ∧ sys.group_id = m.group_id ∧
          sys.content = "Un messaggio è stato rimosso da " ++ u.username) ∧
    (∀ m, (db.messages.find? fun x => x.id == mid) = some m →
      m.sender_id = some u.user_id →
      ∃ m', delete_message db now sid mid u =
          .ok ({ db with messages := updateMessage db.messages mid m' }, m',
            [(m.group_id, "message_deleted")]) ∧
        m'.is_deleted = true ∧ m'.content = tombstone) := by
  constructor
  · intro m s hfind hsender hne hadmin
    have hsne : (m.sender_id != some u.user_id) = true := by
      rw [hsender]
      simpa using fun hc => hne hc
    refine ⟨{ db with messages := updateMessage db.messages mid (tombstoned m now) ++ [systemRow sid m.group_id ("Un messaggio è stato rimosso da " ++ u.username) now] }, tombstoned m now, ?_, rfl, rfl, ?_, ?_⟩
    · unfold delete_message create_system_message
      rw [hfind]
      simp only [hsne, hadmin, hsender, Option.isSome_some, Bool.and_self,
        Bool.true_and, Bool.and_true, Bool.not_true, Bool.false_and,
        Bool.false_eq_true, if_false, if_true]
      simp [tombstoned, systemRow]
      rw [if_neg hne, hsender]
    · exact find?_append_some _ (find?_updateMessage_id _ hfind rfl)
    · refine ⟨systemRow sid m.group_id
          ("Un messaggio è stato rimosso da " ++ u.username) now,
        List.mem_append_right _ (List.mem_singleton.mpr rfl),
        rfl, rfl, rfl, rfl, rfl⟩
  · intro m hfind hsender
    have hsne : (m.sender_id != some u.user_id) = false := by
      rw [hsender]
      simp
    refine ⟨tombstoned m now, ?_, rfl, rfl⟩
    unfold delete_message
    rw [hfind]
    simp only [hsne, Bool.false_and, Bool.and_false, Bool.false_eq_true,
      if_false]
    simp [tombstoned]

/-- C9 witness: the admin boss deletes bob's message 101 in `exDb`; the row
is tombstoned and a system announcement row is persisted. -/
theorem delete_message_behavior_witness :
    ∃ db' m', delete_message exDb 9 300 101 boss =
        .ok (db', m', [(1, "message_deleted"), (1, "system_message")]) ∧
      m'.is_deleted = true ∧ m'.content = tombstone ∧
      ∃ sys ∈ db'.messages, sys.message_type = "system" ∧
        sys.sender_id = none ∧
        sys.content = "Un messaggio è stato rimosso da boss" := by
  obtain ⟨db', m', heq, hdel, hcont, _, sys, hmem, _, hty, hsend, _, hc⟩ :=
    (delete_message_behavior exDb 9 300 101 boss).1
      (mkMsg 101 1 (some 11) (some "bob") "text" "yo" 6) 11
      (by decide) (by decide) (by decide) (by decide)
  refine ⟨db', m', by simpa [mkMsg] using heq, hdel, hcont, sys, hmem, hty,
    hsend, by simpa using hc⟩

/-! ### C7 — markRead idempotence -/

theorem hasReceipt_append_left {rs l : List ReadStatus} {mid uid : Nat}
    (h : hasReceipt rs mid uid = true) :
    hasReceipt (rs ++ l) mid uid = true := by
  unfold hasReceipt at *
  rw [List.any_append, h, Bool.true_or]

theorem mark_loop_grows (uid now : Nat) :
    ∀ (ids : List Nat) (rs : List ReadStatus) (nid mid0 uid0 : Nat),
      hasReceipt rs mid0 uid0 = true →
      hasReceipt (mark_loop uid now ids rs nid).1 mid0 uid0 = true := by
  intro ids
  induction ids with
  | nil => intro rs nid mid0 uid0 h; simpa [mark_loop] using h
  | cons a rest ih =>
    intro rs nid mid0 uid0 h
    unfold mark_loop
    by_cases hex : hasReceipt rs a uid = true
    · rw [if_pos hex]
      exact ih rs nid mid0 uid0 h
    · rw [if_neg hex]
      exact ih _ _ mid0 uid0 (hasReceipt_append_left h)

theorem mark_loop_ensures (uid now : Nat) :
    ∀ (ids : List Nat) (rs : List ReadStatus) (nid mid : Nat),
      mid ∈ ids →
      hasReceipt (mark_loop uid now ids rs nid).1 mid uid = true := by
  intro ids
  induction ids with
  | nil => intro rs nid mid h; cases h
  | cons a rest ih =>
    intro rs nid mid h
    unfold mark_loop
    by_cases hex : hasReceipt rs a uid = true
    · rw [if_pos hex]
      rcases List.mem_cons.mp h with rfl | hm
      · exact mark_loop_grows uid now rest rs nid mid uid hex
      · exact ih rs nid mid hm
    · rw [if_neg hex]
      rcases List.mem_cons.mp h with rfl | hm
      · refine mark_loop_grows uid now rest _ _ mid uid ?_
        unfold hasReceipt
        rw [List.any_append]
        simp
      · exact ih _ _ mid hm

theorem mark_loop_stable (uid now : Nat) :
    ∀ (ids : List Nat) (rs : List ReadStatus) (nid : Nat),
      (∀ mid ∈ ids, hasReceipt rs mid uid = true) →
      mark_loop uid now ids rs nid = (rs, []) := by
  intro ids
  induction ids with
  | nil => intro rs nid _; rfl
  | cons a rest ih =>
    intro rs nid hall
    unfold mark_loop
    rw [if_pos (hall a (List.mem_cons_self a rest))]
    exact ih rs nid fun mid hm => hall mid (List.mem_cons_of_mem _ hm)

theorem mark_loop_fresh (uid now : Nat) :
    ∀ (ids : List Nat) (rs : List ReadStatus) (nid : Nat),
      ∀ s ∈ (mark_loop uid now ids rs nid).2,
        hasReceipt rs s.message_id s.user_id = false := by
  intro ids
  induction ids with
  | nil => intro rs nid s hs; simp [mark_loop] at hs
  | cons a rest ih =>
    intro rs nid s hs
    unfold mark_loop at hs
    by_cases hex : hasReceipt rs a uid = true
    · rw [if_pos hex] at hs
      exact ih rs nid s hs
    · rw [if_neg hex] at hs
      rcases List.mem_cons.mp hs with rfl | hm
      · exact Bool.eq_false_iff.mpr hex
      · have h2 := ih (rs ++ [⟨nid, a, uid, now⟩]) (nid + 1) s hm
        by_cases hval : hasReceipt rs s.message_id s.user_id = true
        · have h3 : hasReceipt (rs ++ [⟨nid, a, uid, now⟩]) s.message_id
              s.user_id = true := hasReceipt_append_left hval
          rw [h3] at h2
          cases h2
        · exact Bool.eq_false_iff.mpr hval

theorem mark_loop_nodup (uid now : Nat) :
    ∀ (ids : List Nat) (rs : List ReadStatus) (nid : Nat),
      keysNodup rs → keysNodup (mark_loop uid now ids rs nid).1 := by
  intro ids
  induction ids with
  | nil => intro rs nid h; exact h
  | cons a rest ih =>
    intro rs nid h
    unfold mark_loop
    by_cases hex : hasReceipt rs a uid = true
    · rw [if_pos hex]
      exact ih rs nid h
    · rw [if_neg hex]
      refine ih _ _ ?_
      unfold keysNodup at *
      rw [List.pairwise_append]
      refine ⟨h, List.pairwise_singleton _ _, ?_⟩
      intro x hx y hy
      rcases List.mem_singleton.mp hy with rfl
      intro hkey
      apply hex
      unfold hasReceipt
      rw [List.any_eq_true]
      exact ⟨x, hx, by rw [Bool.and_eq_true]; exact ⟨by simp [hkey.1], by simp [hkey.2]⟩⟩

/-- C7: `mark_messages_read` is idempotent.  A second call with the same
`(user, messageIds)` returns no receipts and leaves the database (hence
every `get_unread_count`) unchanged; more generally any later call for the
same user returns only receipts whose `(message_id, user_id)` key did not
previously exist and preserves key uniqueness, so overlapping id sets never
create duplicate receipts. -/
theorem mark_read_idempotent (db : DB) (now1 base1 now2 base2 uid : Nat)
    (ids : List Nat) :
    (mark_messages_read (mark_messages_read db now1 base1 uid ids).1
        now2 base2 uid ids).2 = [] ∧
    (mark_messages_read (mark_messages_read db now1 base1 uid ids).1
        now2 base2 uid ids).1 = (mark_messages_read db now1 base1 uid ids).1 ∧
    (∀ gid u2, get_unread_count
        (mark_messages_read (mark_messages_read db now1 base1 uid ids).1
          now2 base2 uid ids).1 gid u2 =
      get_unread_count (mark_messages_read db now1 base1 uid ids).1 gid u2) ∧
    (∀ ids2 now3 base3 s,
      s ∈ (mark_messages_read (mark_messages_read db now1 base1 uid ids).1
            now3 base3 uid ids2).2 →
      hasReceipt (mark_messages_read db now1 base1 uid ids).1.read_statuses
        s.message_id s.user_id = false) ∧
    (∀ ids2 now3 base3,
      keysNodup (mark_messages_read db now1 base1 uid ids).1.read_statuses →
      keysNodup (mark_messages_read (mark_messages_read db now1 base1 uid ids).1
          now3 base3 uid ids2).1.read_statuses) := by
  have hensure : ∀ mid ∈ ids,
      hasReceipt (mark_messages_read db now1 base1 uid ids).1.read_statuses
        mid uid = true := by
    intro mid hm
    exact mark_loop_ensures uid now1 ids db.read_statuses base1 mid hm
  have hstable : mark_loop uid now2 ids
      (mark_messages_read db now1 base1 uid ids).1.read_statuses base2 =
      ((mark_messages_read db now1 base1 uid ids).1.read_statuses, []) :=
    mark_loop_stable uid now2 ids _ base2 hensure
  have h21 : (mark_messages_read (mark_messages_read db now1 base1 uid ids).1
      now2 base2 uid ids).1 = (mark_messages_read db now1 base1 uid ids).1 := by
    show ({ (mark_messages_read db now1 base1 uid ids).1 with
      read_statuses := (mark_loop uid now2 ids
        (mark_messages_read db now1 base1 uid ids).1.read_statuses base2).1 } : DB) =
      (mark_messages_read db now1 base1 uid ids).1
    rw [hstable]
  refine ⟨?_, h21, ?_, ?_, ?_⟩
  · show (mark_loop uid now2 ids
      (mark_messages_read db now1 base1 uid ids).1.read_statuses base2).2 = []
    rw [hstable]
  · intro gid u2
    rw [h21]
  · intro ids2 now3 base3 s hs
    exact mark_loop_fresh uid now3 ids2 _ base3 s hs
  · intro ids2 now3 base3 hnd
    exact mark_loop_nodup uid now3 ids2 _ base3 hnd

/-- C7 witness: a concrete double call — the second identical `markRead`
returns no receipts and leaves the store identical. -/
theorem mark_read_idempotent_witness :
    (mark_messages_read (mark_messages_read exDb 20 500 10 [100, 101]).1
        21 600 10 [100, 101]).2 = [] ∧
    (mark_messages_read (mark_messages_read exDb 20 500 10 [100, 101]).1
        21 600 10 [100, 101]).1 =
      (mark_messages_read exDb 20 500 10 [100, 101]).1 :=
  ⟨(mark_read_idempotent exDb 20 500 21 600 10 [100, 101]).1,
   (mark_read_idempotent exDb 20 500 21 600 10 [100, 101]).2.1⟩

/-! ### C4 — new_message fan-out on the push channel -/

theorem broadcast_none_is_whole_snapshot (reg : Registry) (gid : Nat)
    (et : String) :
    broadcast_to_group_ws reg gid et none = (lookupGroupConns reg gid).getD [] := by
  unfold broadcast_to_group_ws
  cases lookupGroupConns reg gid with
  | none => rfl
  | some conns => simp

/-- C4 counterexample: alice (user 10) and bob are both live in group 1
(`regAB`); alice's successful push-channel send of "hi" delivers the
`new_message` envelope to **both** connections, including alice's own
handle (10, 100) — line 149 of src/app/api/websocket_routes.py passes no
`exclude_user` — contradicting the claim that the sender is excluded. -/
theorem ws_new_message_echoes_sender_cex :
    (ws_send_message exDb regAB 9 300 1 alice "hi" "text" none).2 =
        .sent [(10, 100), (11, 101)] ∧
      alice.user_id = 10 := by
  decide

/-- C4 amended: a successful push-channel send of a text message by a member
broadcasts `new_message` to the whole connection snapshot of the group —
every live connection registered in G, the sender's own included (the
`exclude_user` mechanism exists in `_broadcast_to_group_ws` but the
`new_message` fan-out passes no excluded user; connections of other groups
receive nothing since only G's snapshot is consulted). -/
theorem ws_new_message_fanout (db : DB) (reg : Registry) (now nid gid : Nat)
    (u : CurrentUser) (content mt : String)
    (hmem : membershipExists db gid u.user_id = true)
    (hc : ¬(pyStrip content = ""))
    (hmt : mt = "admin_announcement" → u.is_admin = true) :
    (ws_send_message db reg now nid gid u content mt none).2 =
      .sent ((lookupGroupConns reg gid).getD []) := by
  unfold ws_send_message
  rw [if_neg (by simp [hc])]
  have hperm : (mt == "admin_announcement" && !u.is_admin) = false := by
    by_cases hcase : mt = "admin_announcement"
    · simp [hcase, hmt hcase]
    · simp [hcase]
  unfold send_message
  rw [hmem]
  simp only [Bool.not_true, Bool.false_eq_true, if_false, hperm]
  simp [broadcast_none_is_whole_snapshot]

/-- C4 witness: the amended fan-out theorem at the concrete registry
`regAB`, where the full snapshot of group 1 is both connections. -/
theorem ws_new_message_fanout_witness :
    (ws_send_message exDb regAB 9 300 1 alice "hi" "text" none).2 =
      .sent ((lookupGroupConns regAB 1).getD []) :=
  ws_new_message_fanout exDb regAB 9 300 1 alice "hi" "text"
    (by decide) (by decide) (by decide)

/-! ### C10 — blank content on the push channel -/

/-- C10: a `send_message` action whose content strips to the empty string is
silently ignored — the handler hits `continue` before touching the service,
so no row is created, nothing is broadcast and no `error` envelope is sent
(outcome `.ignored`, database unchanged).  By contrast, a non-blank action
whose service call raises produces an `error` envelope to the originating
connection only (outcome `.errorEnvelope`), again with no broadcast. -/
theorem ws_blank_send_ignored (db : DB) (reg : Registry) (now nid gid : Nat)
    (u : CurrentUser) (content mt : String) (rid : Option Nat) :
    (pyStrip content = "" →
      ws_send_message db reg now nid gid u content mt rid = (db, .ignored)) ∧
    (∀ e, pyStrip content ≠ "" →
      send_message db now nid gid u (pyStrip content) mt rid [] = .error e →
      ws_send_message db reg now nid gid u content mt rid =
        (db, .errorEnvelope e)) := by
  constructor
  · intro hc
    unfold ws_send_message
    rw [if_pos (by simp [hc])]
  · intro e hc he
    unfold ws_send_message
    rw [if_neg (by simp [hc])]
    rw [he]

/-- C10 witness: whitespace-only content is ignored; the same action with
non-blank content from a non-member instead yields an error envelope. -/
theorem ws_blank_send_ignored_witness :
    ws_send_message exDb regAB 9 300 1 alice "   " "text" none =
        (exDb, .ignored) ∧
      ws_send_message exDb regAB 9 300 77 ⟨77, "eve", "member"⟩ "hi" "text"
          none =
        (exDb, .errorEnvelope .notAMember) :=
  ⟨(ws_blank_send_ignored exDb regAB 9 300 1 alice "   " "text" none).1
      (by decide),
   (ws_blank_send_ignored exDb regAB 9 300 77 ⟨77, "eve", "member"⟩ "hi"
        "text" none).2 .notAMember (by decide) (by decide)⟩

/-! ### C5 / C6 — pagination machinery -/

theorem sorted_strict_of_distinct {l : List Message}
    (hs : List.Sorted newerFirst l) (hdt : distinctTimes l) :
    List.Sorted strictNewer l := by
  unfold distinctTimes at hdt
  have hcomb := List.Pairwise.and hs hdt
  exact hcomb.imp fun h =>
    Nat.lt_of_le_of_ne h.1 fun hc => h.2 hc.symm

theorem sortedG_perm (db : DB) (gid : Nat) :
    (sortedG db gid).Perm (groupRows db gid) :=
  List.perm_insertionSort _ _

theorem distinctTimes_perm {l l' : List Message} (hp : l.Perm l')
    (hdt : distinctTimes l) : distinctTimes l' := by
  unfold distinctTimes at *
  exact (List.Perm.pairwise_iff (fun h hc => h hc.symm) hp).mp hdt

theorem sortedG_strict (db : DB) (gid : Nat)
    (hdt : distinctTimes (groupRows db gid)) :
    List.Sorted strictNewer (sortedG db gid) :=
  sorted_strict_of_distinct (List.sorted_insertionSort _ _)
    (distinctTimes_perm (sortedG_perm db gid).symm hdt)

theorem insertionSort_filter_comm (q : List Message) (p : Message → Bool)
    (hdt : distinctTimes q) :
    (q.filter p).insertionSort newerFirst =
      (q.insertionSort newerFirst).filter p := by
  have hperm : ((q.filter p).insertionSort newerFirst).Perm
      ((q.insertionSort newerFirst).filter p) :=
    (List.perm_insertionSort _ _).trans
      (List.Perm.filter p (List.perm_insertionSort newerFirst q)).symm
  have hs1 : List.Sorted strictNewer ((q.filter p).insertionSort newerFirst) :=
    sorted_strict_of_distinct (List.sorted_insertionSort _ _)
      (distinctTimes_perm (List.perm_insertionSort _ _).symm
        (List.Pairwise.sublist (List.filter_sublist q) hdt))
  have hs2 : List.Sorted strictNewer ((q.insertionSort newerFirst).filter p) :=
    List.Pairwise.sublist (List.filter_sublist _)
      (sorted_strict_of_distinct (List.sorted_insertionSort _ _)
        (distinctTimes_perm (List.perm_insertionSort _ _).symm hdt))
  exact List.eq_of_perm_of_sorted hperm hs1 hs2

theorem get_messages_eq (db : DB) (gid L : Nat) (before : Option Nat)
    (hdt : distinctTimes (groupRows db gid)) :
    get_messages db gid L before = pageOf (cursorRows db gid before) L := by
  have hkey : (db.messages.filter (msgMatches gid before)).insertionSort
      newerFirst = cursorRows db gid before := by
    cases before with
    | none =>
      simp only [cursorRows, sortedG]
      unfold groupRows
      congr 1
      apply List.filter_congr
      intro m _
      simp [msgMatches]
    | some b =>
      simp only [cursorRows, sortedG]
      rw [← insertionSort_filter_comm (groupRows db gid) _ hdt]
      congr 1
      unfold groupRows
      rw [List.filter_filter]
      apply List.filter_congr
      intro m _
      simp [msgMatches, Bool.and_comm]
  unfold get_messages pageOf
  rw [hkey]

theorem filter_lt_getLast_take :
    ∀ (s : List Message), List.Sorted strictNewer s →
      ∀ (L : Nat), 1 ≤ L → L ≤ s.length →
      ∀ last, (s.take L).getLast? = some last →
      s.filter (fun m => decide (m.created_at < last.created_at)) =
        s.drop L := by
  intro s
  induction s with
  | nil =>
    intro _ L hL hlen last _
    exfalso
    simp at hlen
    omega
  | cons x t ih =>
    intro hs L hL hlen last hlast
    have hxt : ∀ y ∈ t, y.created_at < x.created_at :=
      fun y hy => (List.pairwise_cons.mp hs).1 y hy
    have hst : List.Sorted strictNewer t := (List.pairwise_cons.mp hs).2
    obtain ⟨K, rfl⟩ : ∃ k, L = k + 1 := ⟨L - 1, by omega⟩
    cases K with
    | zero =>
      have h1 : (x :: t).take 1 = [x] := rfl
      rw [h1] at hlast
      have hx : last = x := by simpa using hlast.symm
      show List.filter _ (x :: t) = t
      rw [List.filter_cons]
      have hself : (decide (x.created_at < last.created_at)) = false := by
        rw [hx]
        simp
      rw [hself]
      simp only [Bool.false_eq_true, if_false]
      refine List.filter_eq_self.mpr fun y hy => ?_
      rw [hx]
      simpa using hxt y hy
    | succ L' =>
      have hlen' : L' + 1 ≤ t.length := by
        simp at hlen
        omega
      cases t with
      | nil => simp at hlen'
      | cons y t' =>
        have htake : (x :: y :: t').take (L' + 2) =
            x :: y :: t'.take L' := rfl
        rw [htake, List.getLast?_cons_cons] at hlast
        have hlastmem : last ∈ y :: t'.take L' :=
          List.mem_of_mem_getLast? (by rw [hlast]; rfl)
        have hlastt : last ∈ y :: t' := by
          rcases List.mem_cons.mp hlastmem with rfl | hm
          · exact List.mem_cons_self _ _
          · exact List.mem_cons_of_mem _ (List.mem_of_mem_take hm)
        have hlx : last.created_at < x.created_at := hxt last hlastt
        have hl2 : ((y :: t').take (L' + 1)).getLast? = some last := by
          have h2 : (y :: t').take (L' + 1) = y :: t'.take L' := rfl
          rw [h2]
          exact hlast
        have hstep := ih hst (L' + 1) (by omega) hlen' last hl2
        show List.filter _ (x :: y :: t') = (y :: t').drop (L' + 1)
        rw [List.filter_cons]
        have hpx : (decide (x.created_at < last.created_at)) = false := by
          simp
          omega
        rw [hpx]
        simp only [Bool.false_eq_true, if_false]
        exact hstep

theorem sorted_getLast?_min :
    ∀ (l : List Message), List.Sorted strictNewer l →
      ∀ last, l.getLast? = some last →
      ∀ x ∈ l, x = last ∨ last.created_at < x.created_at := by
  intro l
  induction l with
  | nil => intro _ last h; simp at h
  | cons a t ih =>
    intro hs last hlast x hx
    cases t with
    | nil =>
      have ha : last = a := by simpa using hlast.symm
      have hxa : x = a := by simpa using hx
      subst ha
      exact Or.inl hxa
    | cons b t' =>
      rw [List.getLast?_cons_cons] at hlast
      rcases List.mem_cons.mp hx with rfl | hx'
      · right
        have hlm : last ∈ b :: t' :=
          List.mem_of_mem_getLast? (by rw [hlast]; rfl)
        exact (List.pairwise_cons.mp hs).1 last hlm
      · exact ih (List.pairwise_cons.mp hs).2 last hlast x hx'

theorem cursorRows_some_eq_filter (db : DB) (gid : Nat) (b c : Nat)
    (hcb : c < b) :
    cursorRows db gid (some c) =
      (cursorRows db gid (some b)).filter
        (fun m => decide (m.created_at < c)) := by
  simp only [cursorRows]
  rw [List.filter_filter]
  apply List.filter_congr
  intro m _
  by_cases hm : m.created_at < c
  · simp [hm, Nat.lt_trans hm hcb]
  · simp [hm]

theorem cursorRows_sorted (db : DB) (gid : Nat)
    (hdt : distinctTimes (groupRows db gid)) (cursor : Option Nat) :
    List.Sorted strictNewer (cursorRows db gid cursor) := by
  cases cursor with
  | none => exact sortedG_strict db gid hdt
  | some b =>
    exact List.Pairwise.sublist (List.filter_sublist _)
      (sortedG_strict db gid hdt)

theorem paginate_walk (db : DB) (gid L : Nat) (hL : 1 ≤ L)
    (hdt : distinctTimes (groupRows db gid)) :
    ∀ (fuel : Nat) (cursor : Option Nat),
      (cursorRows db gid cursor).length ≤ fuel →
      ((paginate db gid L fuel cursor).flatten.Perm
          (cursorRows db gid cursor) ∧
        ∀ p ∈ paginate db gid L fuel cursor, List.Sorted olderFirst p) := by
  intro fuel
  induction fuel with
  | zero =>
    intro cursor hlen
    have hnil : cursorRows db gid cursor = [] :=
      List.length_eq_zero.mp (Nat.le_zero.mp hlen)
    constructor
    · simp [paginate, hnil]
    · intro p hp
      simp [paginate] at hp
  | succ fuel ihf =>
    intro cursor hlen
    have hssorted : List.Sorted strictNewer (cursorRows db gid cursor) :=
      cursorRows_sorted db gid hdt cursor
    have hpage := get_messages_eq db gid L cursor hdt
    by_cases hmore : L < (cursorRows db gid cursor).length
    · -- a full page plus at least one more row
      have hfl : ((cursorRows db gid cursor).take (L + 1)).length = L + 1 := by
        rw [List.length_take]
        omega
      have hpage2 : pageOf (cursorRows db gid cursor) L =
          (((cursorRows db gid cursor).take L).reverse, true) := by
        simp only [pageOf, hfl]
        rw [List.take_take]
        simp [Nat.min_eq_left (Nat.le_succ L)]
      have htlen : ((cursorRows db gid cursor).take L).length = L := by
        rw [List.length_take]
        omega
      cases hlast : ((cursorRows db gid cursor).take L).getLast? with
      | none =>
        exfalso
        have : (cursorRows db gid cursor).take L = [] :=
          List.getLast?_eq_none_iff.mp hlast
        rw [this] at htlen
        simp at htlen
        omega
      | some last =>
        have hnext : cursorRows db gid (some last.created_at) =
            (cursorRows db gid cursor).drop L := by
          cases cursor with
          | none =>
            exact filter_lt_getLast_take _ hssorted L hL
              (Nat.le_of_lt hmore) last hlast
          | some b =>
            have hlastmem : last ∈ cursorRows db gid (some b) :=
              List.mem_of_mem_take
                (List.mem_of_mem_getLast? (by rw [hlast]; rfl))
            have hlb : last.created_at < b := by
              have h2 := (List.mem_filter.mp hlastmem).2
              simpa using h2
            rw [cursorRows_some_eq_filter db gid b last.created_at hlb]
            exact filter_lt_getLast_take _ hssorted L hL
              (Nat.le_of_lt hmore) last hlast
        have hlen' : (cursorRows db gid (some last.created_at)).length ≤
            fuel := by
          rw [hnext, List.length_drop]
          omega
        obtain ⟨ihp, ihs⟩ := ihf (some last.created_at) hlen'
        have hred : paginate db gid L (fuel + 1) cursor =
            ((cursorRows db gid cursor).take L).reverse ::
              paginate db gid L fuel (some last.created_at) := by
          simp only [paginate, hpage, hpage2, List.head?_reverse, hlast,
            if_true]
        rw [hred]
        constructor
        · rw [List.flatten_cons]
          exact (List.Perm.append (List.reverse_perm _)
              (hnext ▸ ihp)).trans
            (List.Perm.of_eq (List.take_append_drop L _))
        · intro p hp
          rcases List.mem_cons.mp hp with rfl | hm
          · exact List.pairwise_reverse.mpr
              ((List.Pairwise.sublist (List.take_sublist L _) hssorted).imp
                fun h => h)
          · exact ihs p hm
    · -- the last page
      have htake : (cursorRows db gid cursor).take (L + 1) =
          cursorRows db gid cursor :=
        List.take_of_length_le (by omega)
      have hdec2 : decide (L < (cursorRows db gid cursor).length) = false :=
        decide_eq_false (by omega)
      have hpage2 : pageOf (cursorRows db gid cursor) L =
          ((cursorRows db gid cursor).reverse, false) := by
        simp [pageOf, htake, hdec2]
      have hred : paginate db gid L (fuel + 1) cursor =
          [(cursorRows db gid cursor).reverse] := by
        simp only [paginate, hpage, hpage2]
        simp
      rw [hred]
      constructor
      · simp only [List.flatten_cons, List.flatten_nil, List.append_nil]
        exact List.reverse_perm _
      · intro p hp
        rcases List.mem_singleton.mp hp with rfl
        exact List.pairwise_reverse.mpr (hssorted.imp fun h => h)

/-- C6: with pairwise-distinct `created_at` values and limit L ≥ 1,
starting with no cursor and repeatedly calling `get_messages` with the
emitted next cursor (the `created_at` of the first — oldest — message of
the page just returned, emitted only when `has_more` is true) until
`has_more` is false visits every message of the group exactly once: the
concatenation of the pages is a permutation of the group's rows (pairwise
distinct by hypothesis), and every page is internally ordered oldest
first. -/
theorem paginate_visits_every_message (db : DB) (gid L fuel : Nat)
    (hL : 1 ≤ L) (hdt : distinctTimes (groupRows db gid))
    (hfuel : (groupRows db gid).length ≤ fuel) :
    (paginate db gid L fuel none).flatten.Perm (groupRows db gid) ∧
    ∀ p ∈ paginate db gid L fuel none, List.Sorted olderFirst p := by
  have hlen : (cursorRows db gid none).length ≤ fuel := by
    have heq := (sortedG_perm db gid).length_eq
    simpa [cursorRows, heq] using hfuel
  obtain ⟨h1, h2⟩ := paginate_walk db gid L hL hdt fuel none hlen
  refine ⟨h1.trans ?_, h2⟩
  simpa [cursorRows] using sortedG_perm db gid

/-- C6 witness: the walk over `exDb6` (three rows at instants 5, 6, 7) with
limit 2 and enough fuel. -/
theorem paginate_visits_every_message_witness :
    1 ≤ 2 ∧
    (paginate exDb6 1 2 3 none).flatten.Perm (groupRows exDb6 1) :=
  ⟨by decide,
   (paginate_visits_every_message exDb6 1 2 3 (by decide) (by decide)
      (by decide)).1⟩

/-- C5 counterexample: in `exDbTie` the two messages of group 1 share
`created_at = 5`.  With limit 1 `get_messages` returns `hasMore = true`,
yet no message of the group is strictly older than the returned page's
oldest (and only) entry, whose `created_at` is 5 — the claimed iff fails
under timestamp ties. -/
theorem page_hasmore_tie_cex :
    (get_messages exDbTie 1 1 none).2 = true ∧
    ((get_messages exDbTie 1 1 none).1.map fun m => m.created_at) = [5] ∧
    ∀ m ∈ exDbTie.messages, ¬(m.created_at < 5) := by
  decide

theorem cursorRows_mem (db : DB) (gid : Nat) (before : Option Nat) :
    ∀ m ∈ cursorRows db gid before,
      m ∈ db.messages ∧ m.group_id = gid ∧
        ∀ b, before = some b → m.created_at < b := by
  intro m hm
  have hmG : m ∈ groupRows db gid := by
    cases before with
    | none =>
      exact (sortedG_perm db gid).mem_iff.mp hm
    | some b =>
      have hm2 : m ∈ (sortedG db gid).filter
          (fun x => decide (x.created_at < b)) := hm
      exact (sortedG_perm db gid).mem_iff.mp (List.mem_of_mem_filter hm2)
  have hmdb : m ∈ db.messages := (List.mem_filter.mp hmG).1
  have hgid : m.group_id = gid := by
    have h2 := (List.mem_filter.mp hmG).2
    simpa using h2
  refine ⟨hmdb, hgid, ?_⟩
  intro b hb
  subst hb
  have hm2 : m ∈ (sortedG db gid).filter
      (fun x => decide (x.created_at < b)) := hm
  have h3 := (List.mem_filter.mp hm2).2
  simpa using h3

theorem cursorRows_mem_of (db : DB) (gid : Nat) (b : Nat) {m : Message}
    (hmdb : m ∈ db.messages) (hgid : m.group_id = gid)
    (hlt : m.created_at < b) :
    m ∈ cursorRows db gid (some b) := by
  simp only [cursorRows]
  refine List.mem_filter.mpr ⟨?_, by simpa using hlt⟩
  exact (sortedG_perm db gid).mem_iff.mpr
    (List.mem_filter.mpr ⟨hmdb, by simp [hgid]⟩)

/-- C5 amended: with pairwise-distinct `created_at` values in the group and
L ≥ 1, `get_messages` returns at most L messages, all of the group and
(when a cursor is given) strictly older than it, sorted ascending by
`created_at`; and `has_more = true` iff the store holds a message of the
group strictly older than the returned page's oldest (first) entry.  The
distinctness hypothesis is forced by the tie counterexample: with equal
timestamps `has_more` can be true with no strictly older row. -/
theorem get_messages_page_spec (db : DB) (gid L : Nat) (before : Option Nat)
    (hL : 1 ≤ L) (hdt : distinctTimes (groupRows db gid)) :
    (get_messages db gid L before).1.length ≤ L ∧
    (∀ m ∈ (get_messages db gid L before).1, m.group_id = gid ∧
      ∀ b, before = some b → m.created_at < b) ∧
    List.Sorted olderFirst (get_messages db gid L before).1 ∧
    ((get_messages db gid L before).2 = true ↔
      ∃ m ∈ db.messages, m.group_id = gid ∧
        ∃ hd ∈ (get_messages db gid L before).1.head?,
          m.created_at < hd.created_at) := by
  have hpage := get_messages_eq db gid L before hdt
  have hssorted := cursorRows_sorted db gid hdt before
  refine ⟨?_, ?_, ?_, ?_⟩
  · -- at most L rows
    rw [hpage]
    simp only [pageOf, List.length_reverse]
    split
    · rw [List.length_take, List.length_take]
      omega
    · next hcond =>
      rw [List.length_take]
      simp only [decide_eq_true_eq, List.length_take] at hcond
      omega
  · -- all rows of the group, older than the cursor
    intro m hm
    rw [hpage] at hm
    simp only [pageOf, List.mem_reverse] at hm
    have hmS : m ∈ cursorRows db gid before := by
      split at hm
      · exact List.mem_of_mem_take (List.mem_of_mem_take hm)
      · exact List.mem_of_mem_take hm
    obtain ⟨_, hgid, hb⟩ := cursorRows_mem db gid before m hmS
    exact ⟨hgid, hb⟩
  · -- ascending within the page
    rw [hpage]
    simp only [pageOf]
    split
    · exact List.pairwise_reverse.mpr
        ((List.Pairwise.sublist
            ((List.take_sublist _ _).trans (List.take_sublist _ _))
            hssorted).imp fun h => h)
    · exact List.pairwise_reverse.mpr
        ((List.Pairwise.sublist (List.take_sublist _ _) hssorted).imp
          fun h => h)
  · rw [hpage]
    constructor
    · intro hmore
      have hlt : L < (cursorRows db gid before).length := by
        simp only [pageOf, decide_eq_true_eq, List.length_take] at hmore
        omega
      have hfl : ((cursorRows db gid before).take (L + 1)).length = L + 1 := by
        rw [List.length_take]
        omega
      have hpage2 : pageOf (cursorRows db gid before) L =
          (((cursorRows db gid before).take L).reverse, true) := by
        simp only [pageOf, hfl]
        rw [List.take_take]
        simp [Nat.min_eq_left (Nat.le_succ L)]
      have htlen : ((cursorRows db gid before).take L).length = L := by
        rw [List.length_take]
        omega
      cases hlast : ((cursorRows db gid before).take L).getLast? with
      | none =>
        exfalso
        have h0 : (cursorRows db gid before).take L = [] :=
          List.getLast?_eq_none_iff.mp hlast
        rw [h0] at htlen
        simp at htlen
        omega
      | some last =>
        cases hdrop : (cursorRows db gid before).drop L with
        | nil =>
          exfalso
          have h0 : ((cursorRows db gid before).drop L).length = 0 := by
            rw [hdrop]
            rfl
          rw [List.length_drop] at h0
          omega
        | cons m rest =>
          have hmS : m ∈ cursorRows db gid before := by
            refine (List.drop_sublist L _).subset ?_
            rw [hdrop]
            exact List.mem_cons_self _ _
          obtain ⟨hmdb, hgid, _⟩ := cursorRows_mem db gid before m hmS
          have hrel : strictNewer last m :=
            List.Sorted.rel_of_mem_take_of_mem_drop hssorted
              (List.mem_of_mem_getLast? (by rw [hlast]; rfl))
              (by rw [hdrop]; exact List.mem_cons_self _ _)
          refine ⟨m, hmdb, hgid, last, ?_, hrel⟩
          rw [hpage2]
          simp only [List.head?_reverse]
          rw [hlast]
          rfl
    · intro hrhs
      by_contra hmb
      have hle : (cursorRows db gid before).length ≤ L := by
        simp only [pageOf, decide_eq_true_eq, List.length_take] at hmb
        omega
      obtain ⟨m, hmdb, hgid, hd, hhd, hlt⟩ := hrhs
      have htake : (cursorRows db gid before).take (L + 1) =
          cursorRows db gid before :=
        List.take_of_length_le (by omega)
      have hpage3 : pageOf (cursorRows db gid before) L =
          ((cursorRows db gid before).reverse, false) := by
        simp [pageOf, htake, decide_eq_false
          (by omega : ¬L < (cursorRows db gid before).length)]
      rw [hpage3] at hhd
      simp only [List.head?_reverse] at hhd
      have hglast : (cursorRows db gid before).getLast? = some hd :=
        Option.mem_def.mp hhd
      have hmS : m ∈ cursorRows db gid before := by
        cases before with
        | none =>
          simp only [cursorRows]
          exact (sortedG_perm db gid).mem_iff.mpr
            (List.mem_filter.mpr ⟨hmdb, by simp [hgid]⟩)
        | some b =>
          have hhdS : hd ∈ cursorRows db gid (some b) :=
            List.mem_of_mem_getLast? (by rw [hglast]; rfl)
          have hhdb : hd.created_at < b :=
            (cursorRows_mem db gid (some b) hd hhdS).2.2 b rfl
          exact cursorRows_mem_of db gid b hmdb hgid
            (Nat.lt_trans hlt hhdb)
      rcases sorted_getLast?_min _ hssorted hd hglast m hmS with rfl | hgt
      · exact absurd hlt (Nat.lt_irrefl _)
      · omega

/-- C5 witness: the amended page theorem at `exDb6` (instants 5 < 6 < 7)
with limit 2 and no cursor: the page holds at most two rows and
`has_more` is true, witnessed by the strictly older remaining row. -/
theorem get_messages_page_spec_witness :
    (get_messages exDb6 1 2 none).1.length ≤ 2 ∧
    ((get_messages exDb6 1 2 none).2 = true ↔
      ∃ m ∈ exDb6.messages, m.group_id = 1 ∧
        ∃ hd ∈ (get_messages exDb6 1 2 none).1.head?,
          m.created_at < hd.created_at) :=
  ⟨(get_messages_page_spec exDb6 1 2 none (by decide) (by decide)).1,
   (get_messages_page_spec exDb6 1 2 none (by decide) (by decide)).2.2.2⟩

end ChatCore
